import Mathlib

/-!
Verification development for the Parquet-to-Arrow column transfer core
(cpp/src/parquet/arrow/reader_internal.cc).

The definitions below are a shallow embedding of the transfer functions of
that file.  Machine integers are modelled as Lean Int with explicit wrapping
where a C++ cast truncates; buffers are modelled as an identity tag plus byte
content, so that zero-copy ownership transfer is observable as equality of
the whole buffer value; fallible code returns Except.  External collaborators
that are not part of the repository sources (the Arrow Decimal byte codecs,
the Int96 calendar getters, the generic cast engine, schema type mapping) are
modelled from the specification text or taken as explicit function
parameters, and are marked as such in their doc comments.
-/

namespace ArrowParquet

/-! ## Bit and byte helpers -/

/-- Truncate an integer to the unsigned w-bit range, as a C++ cast to an
unsigned w-bit type does. -/
def toUnsigned (w : Nat) (v : Int) : Int := v % ((2 : Int) ^ w)

/-- Truncate an integer to the signed two-complement w-bit range, as a C++
cast to a signed w-bit type does. -/
def toSigned (w : Nat) (v : Int) : Int :=
  (v + (2 : Int) ^ (w - 1)) % ((2 : Int) ^ w) - (2 : Int) ^ (w - 1)

/-- bit_util::BytesForBits: number of bytes needed to hold n bits. -/
def bytesForBits (n : Nat) : Nat := (n + 7) / 8

/-- Read bit i of a little-endian packed bitmap stored as a byte list
(bit_util::GetBit).  Out-of-range reads yield false. -/
def getBitList (bytes : List Nat) (i : Nat) : Bool :=
  (bytes.getD (i / 8) 0).testBit (i % 8)

/-- Set bit i of a little-endian packed bitmap stored as a byte list
(bit_util::SetBit). -/
def setBitList (bytes : List Nat) (i : Nat) : List Nat :=
  bytes.set (i / 8) (bytes.getD (i / 8) 0 ||| (1 <<< (i % 8)))

/-- Number of set bits among the first n bits of a packed bitmap. -/
def countSetBits (bytes : List Nat) (n : Nat) : Nat :=
  ((List.range n).filter (fun i => getBitList bytes i)).length

/-- Big-endian unsigned integer denoted by a byte list. -/
def beUnsigned (bytes : List Nat) : Nat :=
  bytes.foldl (fun acc b => acc * 256 + b) 0

/-- Modelled from the spec: Decimal FromBigEndian (arrow/util/decimal, not
under src/) interprets stored bytes as a big-endian two-complement integer of
their stored length. -/
def beTwosComplement (bytes : List Nat) : Int :=
  if bytes.length = 0 then 0 else toSigned (8 * bytes.length) (beUnsigned bytes)

/-- Modelled from the spec: Decimal ToBytes (arrow/util/decimal, not under
src/) serializes an integer value into the fixed little-endian two-complement
decimal byte layout of w bytes. -/
def intToBytesLE (w : Nat) (v : Int) : List Nat :=
  (List.range w).map (fun k => ((toUnsigned (8 * w) v).toNat >>> (8 * k)) % 256)

/-! ## Data model -/

/-- Arrow TimeUnit. -/
inductive TimeUnit
  | second
  | milli
  | micro
  | nano
  deriving DecidableEq, Repr

/-- Parquet physical type (parquet::Type). -/
inductive PhysicalType
  | boolean
  | int32
  | int64
  | int96
  | float
  | double
  | byteArray
  | flba
  deriving DecidableEq, Repr

/-- Arrow logical data type, restricted to the ids dispatched on by
TransferColumnData.  The constructor `other` stands for every id that falls
into the default branch of the C++ switch. -/
inductive DataTypeE
  | na
  | bool_
  | int8
  | uint8
  | int16
  | uint16
  | int32
  | uint32
  | int64
  | uint64
  | float32
  | float64
  | halfFloat
  | date32
  | date64
  | time32
  | time64
  | duration
  | timestamp (unit : TimeUnit)
  | decimal128 (precision scale : Nat)
  | decimal256 (precision scale : Nat)
  | binary
  | utf8
  | binaryView
  | utf8View
  | largeBinary
  | largeUtf8
  | fixedSizeBinary (byteWidth : Nat)
  | dictionary (value : DataTypeE)
  | other
  deriving DecidableEq, Repr

/-- A buffer: an identity tag (the memory address in the C++ code) plus the
byte content.  Zero-copy transfer of a buffer is equality of this value. -/
structure BufferE where
  id : Nat
  bytes : List Nat
  deriving DecidableEq, Repr

/-- The target field descriptor: required output type and nullability. -/
structure FieldE where
  ftype : DataTypeE
  nullable : Bool
  deriving DecidableEq, Repr

/-- The parts of parquet ColumnDescriptor used by the dispatcher. -/
structure ColumnDescriptorE where
  physicalType : PhysicalType
  typeLength : Nat
  deriving DecidableEq, Repr

/-- Error statuses produced by this core. -/
inductive StatusE
  | invalid (msg : String)
  | notImplemented (msg : String)
  deriving DecidableEq, Repr

/-- arrow ArrayStatistics attached to a produced array. -/
structure ArrayStatisticsE where
  nullCount : Option Nat
  distinctCount : Option Int
  minV : Option Int
  maxV : Option Int
  isMinExact : Bool
  isMaxExact : Bool
  deriving DecidableEq, Repr

/-- The parts of parquet chunk Statistics used by AttachStatistics; the raw
min and max are carried as integers (the typed accessor values). -/
structure ChunkStatisticsE where
  hasMinMax : Bool
  hasDistinctCount : Bool
  distinctCount : Int
  minRaw : Int
  maxRaw : Int
  deriving DecidableEq, Repr

/-- The parts of parquet ColumnChunkMetaData used by AttachStatistics. -/
structure ColumnChunkMetadataE where
  statistics : Option ChunkStatisticsE
  deriving DecidableEq, Repr

/-- The value payload of a produced array, in the decoded form each transfer
writes: a zero-copied buffer keeps its identity, element-wise outputs are
kept as decoded element lists. -/
inductive PayloadE
  | nullP
  | buf (b : BufferE)
  | bitmap (bytes : List Nat)
  | i64 (vals : List Int)
  | ints (vals : List Int)
  | binary (elems : List (List Nat))
  | fixedBytes (segs : List (List Nat))
  deriving DecidableEq, Repr

/-- arrow ArrayData: type, length, validity buffer (buffers[0]), null count
(none models kUnknownNullCount), values, and attached statistics. -/
structure ArrayE where
  atype : DataTypeE
  length : Nat
  validity : Option BufferE
  nullCountRaw : Option Nat
  payload : PayloadE
  stats : Option ArrayStatisticsE
  deriving DecidableEq, Repr

/-- The observable null count of an array: a known count is returned as is;
an unknown count is computed from the validity bitmap, and is zero when
there is no validity buffer (arrow ArrayData::GetNullCount). -/
def ArrayE.nullCountObs (a : ArrayE) : Nat :=
  match a.nullCountRaw with
  | some n => n
  | none =>
    match a.validity with
    | none => 0
    | some b => a.length - countSetBits b.bytes a.length

/-- Array::IsNull for offset-zero arrays: a slot is null when a validity
buffer is present and its bit is clear. -/
def ArrayE.isNullAt (a : ArrayE) (i : Nat) : Bool :=
  match a.validity with
  | none => false
  | some b => !(getBitList b.bytes i)

/-- One legacy 96-bit timestamp: three 32-bit words; w2 is the high word
(value[2] in the C++ code). -/
structure Int96E where
  w0 : Nat
  w1 : Nat
  w2 : Nat
  deriving DecidableEq, Repr

/-- The Int96 calendar conversion helpers Int96GetNanoSeconds /
Int96GetMicroSeconds / Int96GetMilliSeconds / Int96GetSeconds are declared in
parquet/types.h, which is not part of the sources; they are taken as explicit
function parameters of the embedding. -/
structure Int96Getters where
  nano : Int96E → Int
  micro : Int96E → Int
  milli : Int96E → Int
  second : Int96E → Int

/-- The record reader handle, with the value memory exposed once per
reinterpretation the C++ code performs on the raw values pointer:
boolValues for reinterpret_cast to bool, int32Values / int64Values /
int96Values likewise.  dictChunks / dictType model the materialized
DictionaryRecordReader result, binaryChunks the BinaryRecordReader builder
chunks. -/
structure RecordReaderE where
  valuesWritten : Nat
  valuesBuf : BufferE
  isValid : Option BufferE
  nullCount : Nat
  nullableValues : Bool
  boolValues : List Bool
  int32Values : List Int
  int64Values : List Int
  int96Values : List Int96E
  readDictionary : Bool
  dictChunks : List ArrayE
  dictType : DataTypeE
  binaryChunks : List ArrayE

/-- Reader states reachable from the page-decoding layer: each typed view of
the value memory holds exactly values_written elements, and a reader for a
column without definition levels reports a zero null count. -/
def RecordReaderE.wf (r : RecordReaderE) : Prop :=
  r.boolValues.length = r.valuesWritten ∧
  r.int32Values.length = r.valuesWritten ∧
  r.int64Values.length = r.valuesWritten ∧
  r.int96Values.length = r.valuesWritten ∧
  (r.nullableValues = false → r.nullCount = 0)

/-! ## Transfers -/

/-- ReconstructChunksWithoutNulls: drop the validity buffer from each chunk
that has one and force its null count to zero. -/
def ReconstructChunksWithoutNulls (chunks : List ArrayE) : List ArrayE :=
  chunks.map fun c =>
    match c.validity with
    | some _ => { c with nullCountRaw := some 0, validity := none }
    | none => c

/-- AttachStatistics, with the per-instantiation value conversion (the
implicit ArrowCType conversion of the typed statistics min and max) passed
as castC.  Mirrors the early return when both the null count is unknown and
no statistics are present, the unconditional exactness flags for present
min and max, and the distinct count propagation. -/
def AttachStatistics (castC : Int → Int) (md : Option ColumnChunkMetadataE)
    (a : ArrayE) : ArrayE :=
  match md with
  | none => a
  | some m =>
    if a.nullCountRaw.isNone && m.statistics.isNone then a
    else
      let s0 : ArrayStatisticsE :=
        { nullCount := a.nullCountRaw, distinctCount := none, minV := none,
          maxV := none, isMinExact := false, isMaxExact := false }
      let s1 :=
        match m.statistics with
        | none => s0
        | some st =>
          let sa :=
            if st.hasDistinctCount then
              { s0 with distinctCount := some st.distinctCount }
            else s0
          if st.hasMinMax then
            { sa with minV := some (castC st.minRaw),
                      maxV := some (castC st.maxRaw),
                      isMinExact := true, isMaxExact := true }
          else sa
      { a with stats := some s1 }

/-- TransferZeroCopy: take the validity buffer (when the field is nullable)
and the values buffer directly from the reader, with the null count from the
reader when nullable and zero otherwise. -/
def TransferZeroCopy (castC : Int → Int) (r : RecordReaderE)
    (md : Option ColumnChunkMetadataE) (field : FieldE) : ArrayE :=
  let base : ArrayE :=
    if field.nullable then
      { atype := field.ftype, length := r.valuesWritten, validity := r.isValid,
        nullCountRaw := some r.nullCount, payload := .buf r.valuesBuf,
        stats := none }
    else
      { atype := field.ftype, length := r.valuesWritten, validity := none,
        nullCountRaw := some 0, payload := .buf r.valuesBuf, stats := none }
  AttachStatistics castC md base

/-- TransferInt: element-wise copy with the implicit numeric conversion
castC from the parquet C type to the arrow C type, over the source view
src of the reader values. -/
def TransferInt (castC : Int → Int) (src : List Int) (r : RecordReaderE)
    (md : Option ColumnChunkMetadataE) (field : FieldE) : ArrayE :=
  let length := r.valuesWritten
  let vals := (List.range length).map fun i => castC (src.getD i 0)
  let base : ArrayE :=
    if field.nullable then
      { atype := field.ftype, length := length, validity := r.isValid,
        nullCountRaw := some r.nullCount, payload := .ints vals, stats := none }
    else
      { atype := field.ftype, length := length, validity := none,
        nullCountRaw := some 0, payload := .ints vals, stats := none }
  AttachStatistics castC md base

/-- The boolean bit-packing loop of TransferBool: the output buffer is first
zeroed (the memset), then for each index below len the bit is set when the
byte value is true. -/
def boolPackLoop (vals : List Bool) (len : Nat) : Nat → List Nat
  | 0 => List.replicate (bytesForBits len) 0
  | m + 1 =>
    let acc := boolPackLoop vals len m
    if vals.getD m false then setBitList acc m else acc

/-- The packed value bitmap TransferBool produces. -/
def transferBoolBitmap (vals : List Bool) (len : Nat) : List Nat :=
  boolPackLoop vals len len

/-- TransferBool: pack one byte per value into a bitmap; validity handling
depends on nullable exactly as in the source. -/
def TransferBool (r : RecordReaderE) (md : Option ColumnChunkMetadataE)
    (nullable : Bool) : ArrayE :=
  let length := r.valuesWritten
  let bm := transferBoolBitmap r.boolValues length
  let castB : Int → Int := fun v => if v = 0 then 0 else 1
  let base : ArrayE :=
    if nullable then
      { atype := .bool_, length := length, validity := r.isValid,
        nullCountRaw := some r.nullCount, payload := .bitmap bm, stats := none }
    else
      { atype := .bool_, length := length, validity := none,
        nullCountRaw := some 0, payload := .bitmap bm, stats := none }
  AttachStatistics castB md base

/-- The per-slot conversion of TransferInt96: a zero high word is written as
zero directly; otherwise the getter for the requested unit is applied. -/
def int96Convert (g : Int96Getters) (unit : TimeUnit) (v : Int96E) : Int :=
  if v.w2 = 0 then 0
  else
    match unit with
    | .nano => g.nano v
    | .micro => g.micro v
    | .milli => g.milli v
    | .second => g.second v

/-- TransferInt96: convert each legacy 96-bit timestamp to a 64-bit value in
the requested unit, with the zero-high-word guard. -/
def TransferInt96 (g : Int96Getters) (r : RecordReaderE) (field : FieldE)
    (unit : TimeUnit) : ArrayE :=
  let length := r.valuesWritten
  let vals := (List.range length).map fun i =>
    int96Convert g unit (r.int96Values.getD i ⟨0, 0, 0⟩)
  if field.nullable then
    { atype := field.ftype, length := length, validity := r.isValid,
      nullCountRaw := some r.nullCount, payload := .i64 vals, stats := none }
  else
    { atype := field.ftype, length := length, validity := none,
      nullCountRaw := some 0, payload := .i64 vals, stats := none }

/-- kMillisecondsPerDay. -/
def kMillisecondsPerDay : Int := 86400000

/-- TransferDate64: each 32-bit day count becomes a 64-bit millisecond count
by multiplication, with no overflow guard. -/
def TransferDate64 (r : RecordReaderE) (field : FieldE) : ArrayE :=
  let length := r.valuesWritten
  let vals := (List.range length).map fun i =>
    (r.int32Values.getD i 0) * kMillisecondsPerDay
  if field.nullable then
    { atype := field.ftype, length := length, validity := r.isValid,
      nullCountRaw := some r.nullCount, payload := .i64 vals, stats := none }
  else
    { atype := field.ftype, length := length, validity := none,
      nullCountRaw := some 0, payload := .i64 vals, stats := none }

/-- Modelled from the spec: the general value-casting engine (and the View
re-typing) used on binary and dictionary chunks is an external collaborator;
it is modelled as re-typing the chunk while preserving length, validity and
null count, yielding a fresh array without attached statistics. -/
def castChunkTo (t : DataTypeE) (c : ArrayE) : ArrayE :=
  { c with atype := t, stats := none }

/-- TransferDictionary: take the materialized dictionary result, re-view or
cast it when its type differs from the target, and rebuild the chunks
without validity when the field is non-nullable. -/
def TransferDictionary (r : RecordReaderE) (logicalValueType : DataTypeE)
    (nullable : Bool) : List ArrayE :=
  let out :=
    if r.dictType = logicalValueType then r.dictChunks
    else r.dictChunks.map (castChunkTo logicalValueType)
  if nullable then out else ReconstructChunksWithoutNulls out

/-- TransferBinary: route to the dictionary path when the reader retained
dictionary encoding; otherwise take the builder chunks, cast each chunk
whose type differs from the target, and rebuild the chunks without validity
when the field is non-nullable. -/
def TransferBinary (r : RecordReaderE) (field : FieldE) : List ArrayE :=
  if r.readDictionary then
    TransferDictionary r (.dictionary field.ftype) field.nullable
  else
    let chunks := r.binaryChunks.map fun c =>
      if c.atype = field.ftype then c else castChunkTo field.ftype c
    if field.nullable then chunks else ReconstructChunksWithoutNulls chunks

/-- TransferHalfFloat: transfer as fixed-size-binary of width two, then
re-view the chunks as the half-float type. -/
def TransferHalfFloat (r : RecordReaderE) (field : FieldE) : List ArrayE :=
  let chunked := TransferBinary r { field with ftype := .fixedSizeBinary 2 }
  chunked.map (castChunkTo field.ftype)

/-! ## Decimal transfers -/

/-- The element bytes of a binary chunk (BinaryArray GetValue over all
slots). -/
def binaryElemsOf (a : ArrayE) : List (List Nat) :=
  match a.payload with
  | .binary es => es
  | _ => []

/-- RawBytesToDecimalBytes: Decimal FromBigEndian on the stored bytes (which
rejects a stored length above the decimal byte width), then ToBytes into the
little-endian fixed layout of decByteWidth bytes. -/
def RawBytesToDecimalBytes (decByteWidth : Nat) (value : List Nat) :
    Except StatusE (List Nat) :=
  if decByteWidth < value.length then
    .error (.invalid "Invalid big-endian decimal length")
  else .ok (intToBytesLE decByteWidth (beTwosComplement value))

/-- The row loop of DecimalConverter over a BYTE_ARRAY-backed chunk,
processing the first m rows: the stored length is checked against the target
byte width before anything else; the first sixteen output bytes of the slot
are zeroed; a row is converted when it is not null or when the chunk has no
nulls, and a null row keeps the zeroed first sixteen bytes with the
remaining allocated bytes left as the allocator provided them (init). -/
def byteArrayDecimalLoop (w : Nat) (nc : Nat) (arr : ArrayE)
    (elems : List (List Nat)) (init : Nat → List Nat) :
    Nat → Except StatusE (List (List Nat))
  | 0 => .ok []
  | m + 1 =>
    match byteArrayDecimalLoop w nc arr elems init m with
    | .error e => .error e
    | .ok prev =>
      let record := elems.getD m []
      if w < record.length then
        .error (.invalid "Invalid BYTE_ARRAY length for decimal")
      else
        let zeroed := List.replicate 16 0 ++
          ((init m ++ List.replicate w 0).take w).drop 16
        if (nc > 0 && !(arr.isNullAt m)) || nc == 0 then
          match RawBytesToDecimalBytes w record with
          | .error e => .error e
          | .ok seg => .ok (prev ++ [seg])
        else .ok (prev ++ [zeroed])

/-- DecimalConverter ConvertToDecimal for BYTE_ARRAY physical encoding:
convert every row of the binary chunk into the fixed decimal layout of w
bytes, carrying over the validity buffer and null count of the chunk. -/
def ConvertToDecimalByteArray (w : Nat) (init : Nat → List Nat)
    (targetType : DataTypeE) (arr : ArrayE) : Except StatusE ArrayE :=
  let elems := binaryElemsOf arr
  let nc := arr.nullCountObs
  match byteArrayDecimalLoop w nc arr elems init arr.length with
  | .error e => .error e
  | .ok segs =>
    .ok { atype := targetType, length := arr.length, validity := arr.validity,
          nullCountRaw := some nc, payload := .fixedBytes segs, stats := none }

/-- The row loop of DecimalConverter over a FIXED_LEN_BYTE_ARRAY-backed
chunk: when the chunk has nulls, null rows are zeroed over the full target
width and the rest converted; otherwise every row is converted. -/
def flbaDecimalLoop (w : Nat) (nc : Nat) (arr : ArrayE)
    (elems : List (List Nat)) : Nat → Except StatusE (List (List Nat))
  | 0 => .ok []
  | m + 1 =>
    match flbaDecimalLoop w nc arr elems m with
    | .error e => .error e
    | .ok prev =>
      if nc > 0 && arr.isNullAt m then .ok (prev ++ [List.replicate w 0])
      else
        match RawBytesToDecimalBytes w (elems.getD m []) with
        | .error e => .error e
        | .ok seg => .ok (prev ++ [seg])

/-- DecimalConverter ConvertToDecimal for FIXED_LEN_BYTE_ARRAY physical
encoding. -/
def ConvertToDecimalFLBA (w : Nat) (targetType : DataTypeE) (arr : ArrayE) :
    Except StatusE ArrayE :=
  let elems := binaryElemsOf arr
  let nc := arr.nullCountObs
  match flbaDecimalLoop w nc arr elems arr.length with
  | .error e => .error e
  | .ok segs =>
    .ok { atype := targetType, length := arr.length, validity := arr.validity,
          nullCountRaw := some nc, payload := .fixedBytes segs, stats := none }

/-- DecimalIntegerTransfer: sign-extend each stored native integer to 64
bits (a no-op on the Int model), construct the decimal from that integer
value alone and serialize it to the fixed layout of w bytes; the validity
buffer is taken only when both the reader holds nullable values and the
field is nullable, otherwise the array is built with no validity buffer and
a default (unknown) null count. -/
def DecimalIntegerTransfer (w : Nat) (src : List Int) (r : RecordReaderE)
    (field : FieldE) : ArrayE :=
  let length := r.valuesWritten
  let segs := (List.range length).map fun i => intToBytesLE w (src.getD i 0)
  if r.nullableValues && field.nullable then
    { atype := field.ftype, length := length, validity := r.isValid,
      nullCountRaw := some r.nullCount, payload := .fixedBytes segs,
      stats := none }
  else
    { atype := field.ftype, length := length, validity := none,
      nullCountRaw := none, payload := .fixedBytes segs, stats := none }

/-- The chunk loop of TransferDecimal: convert each builder chunk in order,
stopping at the first failure (RETURN_NOT_OK). -/
def convertChunksLoop (convert : ArrayE → Except StatusE ArrayE) :
    List ArrayE → Except StatusE (List ArrayE)
  | [] => .ok []
  | c :: rest =>
    match convert c with
    | .error e => .error e
    | .ok c2 =>
      match convertChunksLoop convert rest with
      | .error e => .error e
      | .ok rest2 => .ok (c2 :: rest2)

/-- TransferDecimal: convert each builder chunk with the given converter,
then rebuild the chunks without validity when the field is non-nullable. -/
def TransferDecimal (convert : ArrayE → Except StatusE ArrayE)
    (r : RecordReaderE) (field : FieldE) : Except StatusE (List ArrayE) :=
  match convertChunksLoop convert r.binaryChunks with
  | .error e => .error e
  | .ok chunks =>
    if field.nullable then .ok chunks
    else .ok (ReconstructChunksWithoutNulls chunks)

/-! ## Top-level dispatch -/

/-- TransferColumnData: the top-level dispatch on the target field type id,
with nested dispatch on the physical type for decimal and timestamp.  The
allocator content for uninitialized decimal slots is passed as init; the
Int96 getters as g. -/
def TransferColumnData (g : Int96Getters) (init : Nat → List Nat)
    (r : RecordReaderE) (md : Option ColumnChunkMetadataE) (field : FieldE)
    (descr : ColumnDescriptorE) : Except StatusE (List ArrayE) :=
  match field.ftype with
  | .dictionary _ => .ok (TransferDictionary r field.ftype field.nullable)
  | .na => .ok [{ atype := .na, length := r.valuesWritten, validity := none,
                  nullCountRaw := some r.valuesWritten, payload := .nullP,
                  stats := none }]
  | .int32 => .ok [TransferZeroCopy (toSigned 32) r md field]
  | .int64 => .ok [TransferZeroCopy (toSigned 64) r md field]
  | .float32 => .ok [TransferZeroCopy (fun v => v) r md field]
  | .float64 => .ok [TransferZeroCopy (fun v => v) r md field]
  | .bool_ => .ok [TransferBool r md field.nullable]
  | .uint8 => .ok [TransferInt (toUnsigned 8) r.int32Values r md field]
  | .int8 => .ok [TransferInt (toSigned 8) r.int32Values r md field]
  | .uint16 => .ok [TransferInt (toUnsigned 16) r.int32Values r md field]
  | .int16 => .ok [TransferInt (toSigned 16) r.int32Values r md field]
  | .uint32 => .ok [TransferInt (toUnsigned 32) r.int32Values r md field]
  | .uint64 => .ok [TransferInt (toUnsigned 64) r.int64Values r md field]
  | .date32 => .ok [TransferInt (toSigned 32) r.int32Values r md field]
  | .time32 => .ok [TransferInt (toSigned 32) r.int32Values r md field]
  | .time64 => .ok [TransferInt (toSigned 64) r.int64Values r md field]
  | .duration => .ok [TransferInt (toSigned 64) r.int64Values r md field]
  | .date64 => .ok [TransferDate64 r field]
  | .fixedSizeBinary _ => .ok (TransferBinary r field)
  | .binary => .ok (TransferBinary r field)
  | .utf8 => .ok (TransferBinary r field)
  | .binaryView => .ok (TransferBinary r field)
  | .utf8View => .ok (TransferBinary r field)
  | .largeBinary => .ok (TransferBinary r field)
  | .largeUtf8 => .ok (TransferBinary r field)
  | .halfFloat =>
    if descr.physicalType ≠ .flba then
      .error (.invalid "Physical type for halffloat must be fixed length binary")
    else if descr.typeLength ≠ 2 then
      .error (.invalid "Fixed length binary type for halffloat must have a byte width of 2")
    else .ok (TransferHalfFloat r field)
  | .decimal128 _ _ =>
    match descr.physicalType with
    | .int32 => .ok [DecimalIntegerTransfer 16 r.int32Values r field]
    | .int64 => .ok [DecimalIntegerTransfer 16 r.int64Values r field]
    | .byteArray =>
      TransferDecimal (ConvertToDecimalByteArray 16 init field.ftype) r field
    | .flba => TransferDecimal (ConvertToDecimalFLBA 16 field.ftype) r field
    | _ => .error (.invalid
        "Physical type for decimal128 must be int32, int64, byte array, or fixed length binary")
  | .decimal256 _ _ =>
    match descr.physicalType with
    | .int32 => .ok [DecimalIntegerTransfer 32 r.int32Values r field]
    | .int64 => .ok [DecimalIntegerTransfer 32 r.int64Values r field]
    | .byteArray =>
      TransferDecimal (ConvertToDecimalByteArray 32 init field.ftype) r field
    | .flba => TransferDecimal (ConvertToDecimalFLBA 32 field.ftype) r field
    | _ => .error (.invalid
        "Physical type for decimal256 must be int32, int64, byte array, or fixed length binary")
  | .timestamp unit =>
    if descr.physicalType = .int96 then .ok [TransferInt96 g r field unit]
    else
      match unit with
      | .milli => .ok [TransferZeroCopy (toSigned 64) r md field]
      | .micro => .ok [TransferZeroCopy (toSigned 64) r md field]
      | .nano => .ok [TransferZeroCopy (toSigned 64) r md field]
      | .second => .error (.notImplemented "TimeUnit not supported")
  | .other => .error (.notImplemented "No support for reading columns of type")

/-! ## Statistics decoding (int32 path) -/

/-- The bit widths an IntLogicalType can carry (IntLogicalType::Make only
accepts 8, 16, 32 and 64). -/
inductive BitWidth
  | w8
  | w16
  | w32
  | w64
  deriving DecidableEq, Repr

/-- Parquet logical type annotation, restricted to the categories the int32
statistics path dispatches on; `otherL` stands for every remaining
category. -/
inductive LogicalTypeE
  | int (bitWidth : BitWidth) (isSigned : Bool)
  | date
  | time
  | timestampL
  | decimal (precision scale : Nat)
  | stringL
  | noneL
  | otherL
  deriving DecidableEq, Repr

/-- The type carried by a produced min/max scalar: either one of the exact
integer scalar types MakeScalar infers from the C type, or a scalar of an
explicitly supplied arrow type (MakeMinMaxTypedScalar). -/
inductive ScalarTypeE
  | i8
  | u8
  | i16
  | u16
  | i32
  | u32
  | i64
  | u64
  | typed (t : DataTypeE)
  deriving DecidableEq, Repr

/-- A min or max scalar: its type and its integer value. -/
structure ScalarE where
  stype : ScalarTypeE
  value : Int
  deriving DecidableEq, Repr

/-- Int32Statistics: the raw int32 min and max, plus the logical type of the
column descriptor the statistics object carries. -/
structure Int32StatisticsE where
  minRaw : Int
  maxRaw : Int
  descrLogical : LogicalTypeE
  deriving DecidableEq, Repr

/-- Modelled from the spec: FromInt32 (schema_internal, not under src/) maps
the logical annotation of an int32 column to the target arrow type: a sized
integer maps to the exact signed/unsigned integer type of its bit width,
date and time and none map to 32-bit arrow types, anything else is
unsupported. -/
def FromInt32 (logical : LogicalTypeE) : Except StatusE DataTypeE :=
  match logical with
  | .int .w8 true => .ok .int8
  | .int .w8 false => .ok .uint8
  | .int .w16 true => .ok .int16
  | .int .w16 false => .ok .uint16
  | .int .w32 true => .ok .int32
  | .int .w32 false => .ok .uint32
  | .int .w64 true => .ok .int64
  | .int .w64 false => .ok .uint64
  | .date => .ok .date32
  | .time => .ok .time32
  | .noneL => .ok .int32
  | _ => .error (.notImplemented "Unsupported logical type for int32")

/-- MakeMinMaxIntegralScalar: switch on the bit width and signedness of the
IntLogicalType of the descriptor carried by the statistics, producing the
exact integer scalars with the corresponding C cast of the raw values; a
descriptor whose logical type is not a sized integer never reaches this
function (the checked cast in the source), modelled as none. -/
def MakeMinMaxIntegralScalar (stats : Int32StatisticsE) :
    Option (ScalarE × ScalarE) :=
  match stats.descrLogical with
  | .int bw sgn =>
    let p : ScalarTypeE × (Int → Int) :=
      match bw, sgn with
      | .w8, true => (.i8, toSigned 8)
      | .w8, false => (.u8, toUnsigned 8)
      | .w16, true => (.i16, toSigned 16)
      | .w16, false => (.u16, toUnsigned 16)
      | .w32, true => (.i32, toSigned 32)
      | .w32, false => (.u32, toUnsigned 32)
      | .w64, true => (.i64, toSigned 64)
      | .w64, false => (.u64, toUnsigned 64)
    some (⟨p.1, p.2 stats.minRaw⟩, ⟨p.1, p.2 stats.maxRaw⟩)
  | _ => none

/-- FromInt32Statistics: map the logical type through FromInt32, then
dispatch: sized integers through MakeMinMaxIntegralScalar, date and time and
none as int32-valued typed scalars of the mapped type, anything else is
NotImplemented.  The value none inside ok models the C++ path that returns
OK with the out-parameters unset. -/
def FromInt32Statistics (stats : Int32StatisticsE) (logical : LogicalTypeE) :
    Except StatusE (Option (ScalarE × ScalarE)) :=
  match FromInt32 logical with
  | .error e => .error e
  | .ok t =>
    match logical with
    | .int _ _ => .ok (MakeMinMaxIntegralScalar stats)
    | .date => .ok (some (⟨.typed t, stats.minRaw⟩, ⟨.typed t, stats.maxRaw⟩))
    | .time => .ok (some (⟨.typed t, stats.minRaw⟩, ⟨.typed t, stats.maxRaw⟩))
    | .noneL => .ok (some (⟨.typed t, stats.minRaw⟩, ⟨.typed t, stats.maxRaw⟩))
    | _ => .error (.notImplemented "Cannot extract statistics for type ")

/-! ## Helper lemmas -/

theorem getD_range_map {α : Type} (f : Nat → α) (n i : Nat) (d : α)
    (h : i < n) : (((List.range n).map f).getD i d) = f i := by
  rw [List.getD_eq_getElem?_getD]
  simp [List.getElem?_map, List.getElem?_range h]

theorem getD_append_left {α : Type} (xs ys : List α) (i : Nat) (d : α)
    (h : i < xs.length) : (xs ++ ys).getD i d = xs.getD i d := by
  simp [List.getD_eq_getElem?_getD, List.getElem?_append_left h]

theorem getD_append_last {α : Type} (xs : List α) (y : α) (d : α) :
    (xs ++ [y]).getD xs.length d = y := by
  simp [List.getD_eq_getElem?_getD]

theorem length_setBitList (bs : List Nat) (i : Nat) :
    (setBitList bs i).length = bs.length := by
  simp [setBitList]

theorem getBit_setBitList (bs : List Nat) (i j : Nat)
    (hj : j / 8 < bs.length) :
    getBitList (setBitList bs j) i = (getBitList bs i || i == j) := by
  unfold getBitList setBitList
  by_cases hij : i / 8 = j / 8
  · rw [hij]
    rw [List.getD_eq_getElem?_getD, List.getElem?_set_self hj]
    rw [Option.getD_some, Nat.testBit_or, Nat.one_shiftLeft,
      Nat.testBit_two_pow]
    have : (decide (j % 8 = i % 8)) = (i == j) := by
      rw [Bool.eq_iff_iff, beq_iff_eq, decide_eq_true_eq]
      omega
    rw [this, List.getD_eq_getElem?_getD]
  · have hne : i ≠ j := by omega
    rw [List.getD_eq_getElem?_getD, List.getElem?_set_ne (by omega),
      ← List.getD_eq_getElem?_getD]
    simp [hne]

theorem boolPackLoop_length (vals : List Bool) (len m : Nat) :
    (boolPackLoop vals len m).length = bytesForBits len := by
  induction m with
  | zero => simp [boolPackLoop]
  | succ m ih =>
    unfold boolPackLoop
    split
    · rw [length_setBitList, ih]
    · exact ih

theorem div8_lt_bytesForBits {m len : Nat} (h : m < len) :
    m / 8 < bytesForBits len := by
  unfold bytesForBits
  omega

theorem getBit_boolPackLoop (vals : List Bool) (len m i : Nat)
    (hm : m ≤ len) :
    getBitList (boolPackLoop vals len m) i =
      (decide (i < m) && vals.getD i false) := by
  induction m with
  | zero => simp [boolPackLoop, getBitList]
  | succ m ih =>
    have hm' : m ≤ len := Nat.le_of_succ_le hm
    unfold boolPackLoop
    by_cases hv : vals.getD m false = true
    · rw [if_pos hv]
      rw [getBit_setBitList _ i m
        (by rw [boolPackLoop_length]; exact div8_lt_bytesForBits hm)]
      rw [ih hm']
      by_cases hieq : i = m
      · subst hieq
        rw [hv]
        simp
      · have h2 : (i == m) = false := by simp [hieq]
        rw [h2, Bool.or_false]
        congr 1
        rw [decide_eq_decide]
        omega
    · rw [if_neg hv]
      rw [ih hm']
      have hvf : vals.getD m false = false := by
        cases h : vals.getD m false
        · rfl
        · exact absurd h hv
      by_cases hieq : i = m
      · subst hieq
        rw [hvf]
        simp
      · congr 1
        rw [decide_eq_decide]
        omega

theorem nullCountObs_some (a : ArrayE) (n : Nat)
    (h : a.nullCountRaw = some n) : a.nullCountObs = n := by
  unfold ArrayE.nullCountObs
  rw [h]

theorem AttachStatistics_payload (c : Int → Int)
    (md : Option ColumnChunkMetadataE) (a : ArrayE) :
    (AttachStatistics c md a).payload = a.payload := by
  unfold AttachStatistics
  cases md with
  | none => rfl
  | some m =>
    dsimp only
    split <;> rfl

theorem AttachStatistics_validity (c : Int → Int)
    (md : Option ColumnChunkMetadataE) (a : ArrayE) :
    (AttachStatistics c md a).validity = a.validity := by
  unfold AttachStatistics
  cases md with
  | none => rfl
  | some m =>
    dsimp only
    split <;> rfl

theorem AttachStatistics_nullCountRaw (c : Int → Int)
    (md : Option ColumnChunkMetadataE) (a : ArrayE) :
    (AttachStatistics c md a).nullCountRaw = a.nullCountRaw := by
  unfold AttachStatistics
  cases md with
  | none => rfl
  | some m =>
    dsimp only
    split <;> rfl

theorem AttachStatistics_length (c : Int → Int)
    (md : Option ColumnChunkMetadataE) (a : ArrayE) :
    (AttachStatistics c md a).length = a.length := by
  unfold AttachStatistics
  cases md with
  | none => rfl
  | some m =>
    dsimp only
    split <;> rfl

theorem AttachStatistics_nullCountObs (c : Int → Int)
    (md : Option ColumnChunkMetadataE) (a : ArrayE) :
    (AttachStatistics c md a).nullCountObs = a.nullCountObs := by
  unfold ArrayE.nullCountObs
  rw [AttachStatistics_nullCountRaw, AttachStatistics_validity,
    AttachStatistics_length]

theorem TransferZeroCopy_spec (castC : Int → Int) (r : RecordReaderE)
    (md : Option ColumnChunkMetadataE) (field : FieldE) :
    (TransferZeroCopy castC r md field).payload = .buf r.valuesBuf ∧
    (TransferZeroCopy castC r md field).validity =
      (if field.nullable then r.isValid else none) ∧
    (TransferZeroCopy castC r md field).nullCountObs =
      (if field.nullable then r.nullCount else 0) := by
  unfold TransferZeroCopy
  cases hn : field.nullable <;>
    simp only [hn, Bool.false_eq_true, if_false, if_true,
      AttachStatistics_payload, AttachStatistics_validity,
      AttachStatistics_nullCountObs] <;>
    simp [ArrayE.nullCountObs]

/-! ## Claim theorems -/

/-- C1: For every transfer that produces an array or chunked array: if the
target field is declared non-nullable, the produced output has null count
zero and no validity buffer, regardless of the reported null count of the
reader; and if the target field is nullable, the null count of the produced
output equals the reported null count of the reader.  Stated for the three
cited transfer cores: ReconstructChunksWithoutNulls (over chunks in an
arrow-consistent state), TransferZeroCopy, and DecimalIntegerTransfer (over
readers in a reachable state). -/
theorem C1_nullability_contract :
    (∀ chunks : List ArrayE,
       (∀ c ∈ chunks, c.validity = none → c.nullCountObs = 0) →
       ∀ c ∈ ReconstructChunksWithoutNulls chunks,
         c.validity = none ∧ c.nullCountObs = 0) ∧
    (∀ (castC : Int → Int) (r : RecordReaderE)
       (md : Option ColumnChunkMetadataE) (field : FieldE),
       (field.nullable = false →
          (TransferZeroCopy castC r md field).validity = none ∧
          (TransferZeroCopy castC r md field).nullCountObs = 0) ∧
       (field.nullable = true →
          (TransferZeroCopy castC r md field).nullCountObs = r.nullCount)) ∧
    (∀ (w : Nat) (src : List Int) (r : RecordReaderE) (field : FieldE),
       (r.nullableValues = false → r.nullCount = 0) →
       (field.nullable = false →
          (DecimalIntegerTransfer w src r field).validity = none ∧
          (DecimalIntegerTransfer w src r field).nullCountObs = 0) ∧
       (field.nullable = true →
          (DecimalIntegerTransfer w src r field).nullCountObs =
            r.nullCount)) := by
  refine ⟨?_, ?_, ?_⟩
  · intro chunks h c hc
    unfold ReconstructChunksWithoutNulls at hc
    rw [List.mem_map] at hc
    obtain ⟨c0, hc0, hmap⟩ := hc
    cases hv : c0.validity with
    | some b =>
      rw [hv] at hmap
      dsimp only at hmap
      subst hmap
      exact ⟨rfl, nullCountObs_some _ 0 rfl⟩
    | none =>
      rw [hv] at hmap
      dsimp only at hmap
      subst hmap
      exact ⟨hv, h c0 hc0 hv⟩
  · intro castC r md field
    obtain ⟨hp, hvld, hobs⟩ := TransferZeroCopy_spec castC r md field
    constructor
    · intro hn
      rw [hn] at hvld hobs
      simp only [Bool.false_eq_true, if_false] at hvld hobs
      exact ⟨hvld, hobs⟩
    · intro hn
      rw [hn] at hobs
      simpa using hobs
  · intro w src r field hwf
    constructor
    · intro hn
      unfold DecimalIntegerTransfer
      rw [hn]
      simp [ArrayE.nullCountObs]
    · intro hn
      unfold DecimalIntegerTransfer
      rw [hn]
      cases hnv : r.nullableValues
      · simp [ArrayE.nullCountObs, hwf hnv]
      · simp [ArrayE.nullCountObs]

/-- C2: For every column whose target logical type has a physical byte
layout bit-identical to the on-disk encoding (int32, int64, float, double,
and 64-bit timestamps with milli/micro/nano unit), the transfer takes the
zero-copy path: the produced value buffer is the very buffer taken from the
record reader, and when the field is nullable the validity buffer is
likewise the buffer of the reader. -/
theorem C2_zero_copy_path (g : Int96Getters) (init : Nat → List Nat)
    (r : RecordReaderE) (md : Option ColumnChunkMetadataE) (field : FieldE)
    (descr : ColumnDescriptorE)
    (h : field.ftype = .int32 ∨ field.ftype = .int64 ∨
         field.ftype = .float32 ∨ field.ftype = .float64 ∨
         (∃ u, field.ftype = .timestamp u ∧
            (u = .milli ∨ u = .micro ∨ u = .nano) ∧
            descr.physicalType = .int64)) :
    ∃ a, TransferColumnData g init r md field descr = .ok [a] ∧
      a.payload = .buf r.valuesBuf ∧
      a.validity = (if field.nullable then r.isValid else none) := by
  obtain ⟨ft, nb⟩ := field
  dsimp only at h ⊢
  rcases h with h | h | h | h | ⟨u, h, hu, hp⟩ <;> subst h
  · exact ⟨_, rfl, (TransferZeroCopy_spec _ _ _ _).1,
      (TransferZeroCopy_spec _ _ _ _).2.1⟩
  · exact ⟨_, rfl, (TransferZeroCopy_spec _ _ _ _).1,
      (TransferZeroCopy_spec _ _ _ _).2.1⟩
  · exact ⟨_, rfl, (TransferZeroCopy_spec _ _ _ _).1,
      (TransferZeroCopy_spec _ _ _ _).2.1⟩
  · exact ⟨_, rfl, (TransferZeroCopy_spec _ _ _ _).1,
      (TransferZeroCopy_spec _ _ _ _).2.1⟩
  · have hne : ¬ (descr.physicalType = PhysicalType.int96) := by
      rw [hp]
      decide
    rcases hu with hu | hu | hu <;> subst hu
    · refine ⟨TransferZeroCopy (toSigned 64) r md ⟨.timestamp .milli, nb⟩,
        ?_, (TransferZeroCopy_spec _ _ _ _).1,
        (TransferZeroCopy_spec _ _ _ _).2.1⟩
      unfold TransferColumnData
      dsimp only
      rw [if_neg hne]
    · refine ⟨TransferZeroCopy (toSigned 64) r md ⟨.timestamp .micro, nb⟩,
        ?_, (TransferZeroCopy_spec _ _ _ _).1,
        (TransferZeroCopy_spec _ _ _ _).2.1⟩
      unfold TransferColumnData
      dsimp only
      rw [if_neg hne]
    · refine ⟨TransferZeroCopy (toSigned 64) r md ⟨.timestamp .nano, nb⟩,
        ?_, (TransferZeroCopy_spec _ _ _ _).1,
        (TransferZeroCopy_spec _ _ _ _).2.1⟩
      unfold TransferColumnData
      dsimp only
      rw [if_neg hne]

/-- C3: For every boolean column of length N, the boolean transfer produces
a packed bitmap in which, for every index i below N, bit i is set if and
only if the byte value of the reader at position i is true, independent of
the nullability of the field. -/
theorem C3_bool_bitpack (r : RecordReaderE) (md : Option ColumnChunkMetadataE)
    (nullable : Bool) (i : Nat)
    (hlen : r.boolValues.length = r.valuesWritten)
    (hi : i < r.valuesWritten) :
    (TransferBool r md nullable).payload =
      .bitmap (transferBoolBitmap r.boolValues r.valuesWritten) ∧
    getBitList (transferBoolBitmap r.boolValues r.valuesWritten) i =
      r.boolValues.getD i false := by
  constructor
  · unfold TransferBool
    cases hn : nullable <;> simp [hn, AttachStatistics_payload]
  · unfold transferBoolBitmap
    rw [getBit_boolPackLoop _ _ _ _ (Nat.le_refl _)]
    simp [hi]

/-- C10: For every boolean column of length N, every bit of the produced
packed value bitmap at an index greater than or equal to N is zero, because
the output buffer is zero-initialized before bits are set. -/
theorem C10_bool_padding_zero (r : RecordReaderE)
    (md : Option ColumnChunkMetadataE) (nullable : Bool) (i : Nat)
    (hi : r.valuesWritten ≤ i) :
    (TransferBool r md nullable).payload =
      .bitmap (transferBoolBitmap r.boolValues r.valuesWritten) ∧
    getBitList (transferBoolBitmap r.boolValues r.valuesWritten) i = false := by
  constructor
  · unfold TransferBool
    cases hn : nullable <;> simp [hn, AttachStatistics_payload]
  · unfold transferBoolBitmap
    rw [getBit_boolPackLoop _ _ _ _ (Nat.le_refl _)]
    have : ¬ i < r.valuesWritten := by omega
    simp [this]

/-- C4: For every 64-bit date column and every 32-bit day-count value d held
by the reader, the date transfer writes the 64-bit output value
d times 86400000 at the corresponding position, with no overflow guard
applied to the multiplication (the product always fits the 64-bit output
range, as the bounds conjuncts show). -/
theorem C4_date64_conversion (r : RecordReaderE) (field : FieldE) (i : Nat)
    (hi : i < r.valuesWritten)
    (hlo : -(2 ^ 31) ≤ r.int32Values.getD i 0)
    (hhi : r.int32Values.getD i 0 < 2 ^ 31) :
    ∃ vals, (TransferDate64 r field).payload = .i64 vals ∧
      vals.getD i 0 = r.int32Values.getD i 0 * 86400000 ∧
      -(2 ^ 63) ≤ vals.getD i 0 ∧ vals.getD i 0 < 2 ^ 63 := by
  refine ⟨(List.range r.valuesWritten).map
      (fun j => r.int32Values.getD j 0 * kMillisecondsPerDay), ?_, ?_, ?_, ?_⟩
  · unfold TransferDate64
    cases hn : field.nullable <;> simp [hn]
  · rw [getD_range_map _ _ _ _ hi]
    rfl
  · rw [getD_range_map _ _ _ _ hi]
    unfold kMillisecondsPerDay
    have h1 : (-(2 : Int) ^ 31) * 86400000 ≤
        r.int32Values.getD i 0 * 86400000 :=
      mul_le_mul_of_nonneg_right hlo (by norm_num)
    calc -(2 : Int) ^ 63 ≤ (-(2 : Int) ^ 31) * 86400000 := by norm_num
    _ ≤ _ := h1
  · rw [getD_range_map _ _ _ _ hi]
    unfold kMillisecondsPerDay
    have h2 : r.int32Values.getD i 0 * 86400000 ≤
        ((2 : Int) ^ 31 - 1) * 86400000 :=
      mul_le_mul_of_nonneg_right (by omega) (by norm_num)
    calc r.int32Values.getD i 0 * 86400000 ≤
        ((2 : Int) ^ 31 - 1) * 86400000 := h2
    _ < 2 ^ 63 := by norm_num

/-- C5: For every legacy 96-bit timestamp value in the reader: if its high
32-bit word is exactly zero, the transfer writes the 64-bit output value
zero directly without performing timestamp arithmetic; otherwise it writes
the value converted to the requested unit by the corresponding calendar
getter. -/
theorem C5_int96_high_word_guard (g : Int96Getters) (r : RecordReaderE)
    (field : FieldE) (unit : TimeUnit) (i : Nat)
    (hi : i < r.valuesWritten) :
    ∃ vals, (TransferInt96 g r field unit).payload = .i64 vals ∧
      ((r.int96Values.getD i ⟨0, 0, 0⟩).w2 = 0 → vals.getD i 0 = 0) ∧
      ((r.int96Values.getD i ⟨0, 0, 0⟩).w2 ≠ 0 → vals.getD i 0 =
        (match unit with
         | .nano => g.nano (r.int96Values.getD i ⟨0, 0, 0⟩)
         | .micro => g.micro (r.int96Values.getD i ⟨0, 0, 0⟩)
         | .milli => g.milli (r.int96Values.getD i ⟨0, 0, 0⟩)
         | .second => g.second (r.int96Values.getD i ⟨0, 0, 0⟩))) := by
  refine ⟨(List.range r.valuesWritten).map
      (fun j => int96Convert g unit (r.int96Values.getD j ⟨0, 0, 0⟩)),
      ?_, ?_, ?_⟩
  · unfold TransferInt96
    cases hn : field.nullable <;> simp [hn]
  · intro hz
    rw [getD_range_map _ _ _ _ hi]
    unfold int96Convert
    rw [if_pos hz]
  · intro hz
    rw [getD_range_map _ _ _ _ hi]
    unfold int96Convert
    rw [if_neg hz]

theorem byteArrayDecimalLoop_ok (w nc : Nat) (arr : ArrayE)
    (elems : List (List Nat)) (init : Nat → List Nat) (m : Nat)
    (hb : ∀ i, i < m → (elems.getD i []).length ≤ w) :
    ∃ segs, byteArrayDecimalLoop w nc arr elems init m = .ok segs ∧
      segs.length = m ∧
      ∀ i, i < m → (nc = 0 ∨ arr.isNullAt i = false) →
        segs.getD i [] =
          intToBytesLE w (beTwosComplement (elems.getD i [])) := by
  induction m with
  | zero => exact ⟨[], rfl, rfl, by omega⟩
  | succ m ih =>
    obtain ⟨segs, heq, hlen, hvals⟩ :=
      ih (fun i hi => hb i (Nat.lt_succ_of_lt hi))
    unfold byteArrayDecimalLoop
    rw [heq]
    dsimp only
    have hnotlt : ¬ (w < (elems.getD m []).length) := by
      have := hb m (Nat.lt_succ_self m)
      omega
    rw [if_neg hnotlt]
    by_cases hc : ((nc > 0 && !(arr.isNullAt m)) || nc == 0) = true
    · rw [if_pos hc]
      unfold RawBytesToDecimalBytes
      rw [if_neg hnotlt]
      refine ⟨segs ++ [intToBytesLE w (beTwosComplement (elems.getD m []))],
        rfl, by simp [hlen], ?_⟩
      intro i hi hcond
      by_cases him : i < m
      · rw [getD_append_left _ _ _ _ (by omega)]
        exact hvals i him hcond
      · have : i = m := by omega
        subst this
        rw [← hlen, getD_append_last]
    · rw [if_neg hc]
      refine ⟨segs ++ [List.replicate 16 0 ++
        ((init m ++ List.replicate w 0).take w).drop 16], rfl,
        by simp [hlen], ?_⟩
      intro i hi hcond
      by_cases him : i < m
      · rw [getD_append_left _ _ _ _ (by omega)]
        exact hvals i him hcond
      · have hieq : i = m := by omega
        subst hieq
        simp only [Bool.or_eq_true, Bool.and_eq_true, decide_eq_true_eq,
          Bool.not_eq_true', beq_iff_eq] at hc
        push_neg at hc
        rcases hcond with hz | hnn
        · exact absurd hz hc.2
        · exact absurd hnn (by
            intro hf
            exact absurd hf ((hc.1) (by
              rcases Nat.eq_zero_or_pos nc with h0 | h0
              · exact absurd h0 hc.2
              · exact h0)) )

theorem byteArrayDecimalLoop_error (w nc : Nat) (arr : ArrayE)
    (elems : List (List Nat)) (init : Nat → List Nat) (m : Nat)
    (hb : ∃ i, i < m ∧ w < (elems.getD i []).length) :
    ∃ msg, byteArrayDecimalLoop w nc arr elems init m =
      .error (.invalid msg) := by
  induction m with
  | zero =>
    obtain ⟨i, hi, _⟩ := hb
    omega
  | succ m ih =>
    by_cases hm : ∃ i, i < m ∧ w < (elems.getD i []).length
    · obtain ⟨msg, heq⟩ := ih hm
      refine ⟨msg, ?_⟩
      unfold byteArrayDecimalLoop
      rw [heq]
    · have hbm : w < (elems.getD m []).length := by
        obtain ⟨i, hi, hilen⟩ := hb
        by_cases him : i = m
        · rwa [him] at hilen
        · exact absurd ⟨i, by omega, hilen⟩ hm
      have hok : ∀ i, i < m → (elems.getD i []).length ≤ w := by
        intro i hi
        by_contra hlt
        exact hm ⟨i, hi, by omega⟩
      obtain ⟨segs, heq, _, _⟩ :=
        byteArrayDecimalLoop_ok w nc arr elems init m hok
      refine ⟨"Invalid BYTE_ARRAY length for decimal", ?_⟩
      unfold byteArrayDecimalLoop
      rw [heq]
      dsimp only
      rw [if_pos hbm]

/-- C6: For every decimal column backed by byte-array physical encoding, if
some stored value has a byte length that exceeds the byte width of the
target decimal type, the conversion fails with InvalidInput; otherwise it
succeeds and every converted slot (every slot when the chunk has no nulls,
every non-null slot otherwise) holds the stored bytes re-interpreted as a
big-endian two-complement integer and re-encoded into the little-endian
fixed decimal layout.  A negative stored length cannot arise in the model
(lengths are natural numbers). -/
theorem C6_decimal_bytearray_conversion (w : Nat) (init : Nat → List Nat)
    (t : DataTypeE) (arr : ArrayE) (elems : List (List Nat))
    (hp : arr.payload = .binary elems) :
    ((∃ i, i < arr.length ∧ w < (elems.getD i []).length) →
       ∃ msg, ConvertToDecimalByteArray w init t arr =
         .error (.invalid msg)) ∧
    ((∀ i, i < arr.length → (elems.getD i []).length ≤ w) →
       ∃ out segs, ConvertToDecimalByteArray w init t arr = .ok out ∧
         out.payload = .fixedBytes segs ∧ segs.length = arr.length ∧
         ∀ i, i < arr.length →
           (arr.nullCountObs = 0 ∨ arr.isNullAt i = false) →
           segs.getD i [] =
             intToBytesLE w (beTwosComplement (elems.getD i []))) := by
  have he : binaryElemsOf arr = elems := by
    unfold binaryElemsOf
    rw [hp]
  constructor
  · intro hex
    obtain ⟨msg, heq⟩ := byteArrayDecimalLoop_error w arr.nullCountObs arr
      elems init arr.length hex
    refine ⟨msg, ?_⟩
    unfold ConvertToDecimalByteArray
    dsimp only
    rw [he, heq]
  · intro hall
    obtain ⟨segs, heq, hlen, hvals⟩ := byteArrayDecimalLoop_ok w
      arr.nullCountObs arr elems init arr.length hall
    refine ⟨{ atype := t, length := arr.length, validity := arr.validity,
              nullCountRaw := some arr.nullCountObs,
              payload := .fixedBytes segs, stats := none },
            segs, ?_, rfl, hlen, hvals⟩
    unfold ConvertToDecimalByteArray
    dsimp only
    rw [he, heq]

/-- C7: For every decimal column backed by int32 or int64 physical encoding
and every stored integer value v, the transfer sign-extends v to 64 bits (a
no-op on the integer model), constructs the target decimal purely from that
integer value, and serializes it to the fixed decimal byte layout of the
target width at the corresponding output position. -/
theorem C7_decimal_integer_transfer (w : Nat) (src : List Int)
    (r : RecordReaderE) (field : FieldE) (i : Nat)
    (hi : i < r.valuesWritten) :
    ∃ segs,
      (DecimalIntegerTransfer w src r field).payload = .fixedBytes segs ∧
      segs.getD i [] = intToBytesLE w (src.getD i 0) := by
  refine ⟨(List.range r.valuesWritten).map
      (fun j => intToBytesLE w (src.getD j 0)), ?_, ?_⟩
  · unfold DecimalIntegerTransfer
    by_cases hc : (r.nullableValues && field.nullable) = true
    · rw [if_pos hc]
    · rw [if_neg hc]
  · exact getD_range_map _ _ _ _ hi

/-- The exact scalar type MakeScalar infers for a sized integer annotation
(used to state C8). -/
def intScalarType : BitWidth → Bool → ScalarTypeE
  | .w8, true => .i8
  | .w8, false => .u8
  | .w16, true => .i16
  | .w16, false => .u16
  | .w32, true => .i32
  | .w32, false => .u32
  | .w64, true => .i64
  | .w64, false => .u64

/-- The narrowing or widening C conversion applied to the raw int32
statistics values for a sized integer annotation (used to state C8). -/
def intWrap : BitWidth → Bool → Int → Int
  | .w8, true => toSigned 8
  | .w8, false => toUnsigned 8
  | .w16, true => toSigned 16
  | .w16, false => toUnsigned 16
  | .w32, true => toSigned 32
  | .w32, false => toUnsigned 32
  | .w64, true => toSigned 64
  | .w64, false => toUnsigned 64

/-- C8: For every chunk statistics with min/max present over int32 physical
encoding: a sized-integer logical type yields min/max scalars of exactly the
signed/unsigned 8/16/32/64-bit type of its bit width and signedness, with
the stored values narrowed or widened; date, time and none yield
int32-valued scalars of the mapped 32-bit type; any other logical type
fails with NotImplemented. -/
theorem C8_int32_statistics_dispatch (stats : Int32StatisticsE)
    (logical : LogicalTypeE) (hd : stats.descrLogical = logical) :
    (∀ bw sgn, logical = .int bw sgn →
       FromInt32Statistics stats logical =
         .ok (some (⟨intScalarType bw sgn, intWrap bw sgn stats.minRaw⟩,
                    ⟨intScalarType bw sgn, intWrap bw sgn stats.maxRaw⟩))) ∧
    (logical = .date →
       FromInt32Statistics stats logical =
         .ok (some (⟨.typed .date32, stats.minRaw⟩,
                    ⟨.typed .date32, stats.maxRaw⟩))) ∧
    (logical = .time →
       FromInt32Statistics stats logical =
         .ok (some (⟨.typed .time32, stats.minRaw⟩,
                    ⟨.typed .time32, stats.maxRaw⟩))) ∧
    (logical = .noneL →
       FromInt32Statistics stats logical =
         .ok (some (⟨.typed .int32, stats.minRaw⟩,
                    ⟨.typed .int32, stats.maxRaw⟩))) ∧
    ((∀ bw sgn, logical ≠ .int bw sgn) → logical ≠ .date →
       logical ≠ .time → logical ≠ .noneL →
       ∃ msg, FromInt32Statistics stats logical =
         .error (.notImplemented msg)) := by
  refine ⟨?_, ?_, ?_, ?_, ?_⟩
  · intro bw sgn hl
    subst hl
    cases bw <;> cases sgn <;>
      simp [FromInt32Statistics, FromInt32, MakeMinMaxIntegralScalar, hd,
        intScalarType, intWrap]
  · intro hl
    subst hl
    rfl
  · intro hl
    subst hl
    rfl
  · intro hl
    subst hl
    rfl
  · intro hint hdate htime hnone
    cases logical with
    | int bw sgn => exact absurd rfl (hint bw sgn)
    | date => exact absurd rfl hdate
    | time => exact absurd rfl htime
    | noneL => exact absurd rfl hnone
    | timestampL => exact ⟨_, rfl⟩
    | decimal p s => exact ⟨_, rfl⟩
    | stringL => exact ⟨_, rfl⟩
    | otherL => exact ⟨_, rfl⟩

theorem convertChunksLoop_mem (convert : ArrayE → Except StatusE ArrayE)
    (l : List ArrayE) (out : List ArrayE)
    (h : convertChunksLoop convert l = .ok out) :
    ∀ c ∈ out, ∃ c0 ∈ l, convert c0 = .ok c := by
  induction l generalizing out with
  | nil =>
    unfold convertChunksLoop at h
    injection h with h2
    subst h2
    intro c hc
    exact absurd hc (List.not_mem_nil c)
  | cons c0 rest ih =>
    unfold convertChunksLoop at h
    cases hc0 : convert c0 with
    | error e =>
      rw [hc0] at h
      exact Except.noConfusion h
    | ok c2 =>
      rw [hc0] at h
      cases hrest : convertChunksLoop convert rest with
      | error e =>
        rw [hrest] at h
        exact Except.noConfusion h
      | ok rest2 =>
        rw [hrest] at h
        injection h with h2
        subst h2
        intro c hc
        rcases List.mem_cons.mp hc with hch | hct
        · subst hch
          exact ⟨c0, List.mem_cons_self c0 rest, hc0⟩
        · obtain ⟨c1, hc1, hcv⟩ := ih rest2 hrest c hct
          exact ⟨c1, List.mem_cons_of_mem c0 hc1, hcv⟩

theorem ConvertToDecimalByteArray_stats_none (w : Nat)
    (init : Nat → List Nat) (t : DataTypeE) (arr out : ArrayE)
    (h : ConvertToDecimalByteArray w init t arr = .ok out) :
    out.stats = none := by
  unfold ConvertToDecimalByteArray at h
  dsimp only at h
  cases hl : byteArrayDecimalLoop w arr.nullCountObs arr (binaryElemsOf arr)
      init arr.length with
  | error e =>
    rw [hl] at h
    exact Except.noConfusion h
  | ok segs =>
    rw [hl] at h
    injection h with h2
    subst h2
    rfl

theorem Reconstruct_stats_from (chunks : List ArrayE) :
    ∀ c ∈ ReconstructChunksWithoutNulls chunks,
      ∃ c0 ∈ chunks, c.stats = c0.stats := by
  intro c hc
  unfold ReconstructChunksWithoutNulls at hc
  rw [List.mem_map] at hc
  obtain ⟨c0, hc0, hmap⟩ := hc
  refine ⟨c0, hc0, ?_⟩
  cases hv : c0.validity with
  | some b =>
    rw [hv] at hmap
    dsimp only at hmap
    subst hmap
    rfl
  | none =>
    rw [hv] at hmap
    dsimp only at hmap
    subst hmap
    rfl

theorem AttachStatistics_minmax_exact (castC : Int → Int)
    (m : ColumnChunkMetadataE) (st : ChunkStatisticsE) (a : ArrayE)
    (hst : m.statistics = some st) (hmm : st.hasMinMax = true) :
    ∃ s, (AttachStatistics castC (some m) a).stats = some s ∧
      s.isMinExact = true ∧ s.isMaxExact = true := by
  unfold AttachStatistics
  dsimp only
  rw [hst]
  simp only [Option.isNone_some, Bool.and_false, Bool.false_eq_true,
    if_false, hmm, if_true]
  exact ⟨_, rfl, rfl, rfl⟩

/-- C9: For every attached statistics summary: when the physical encoding is
numeric or boolean (the only instantiations of AttachStatistics) and min/max
are present, is_min_exact and is_max_exact are set to true unconditionally;
the byte-oriented decimal and binary transfer outputs never have these flags
forced by this core (their chunks carry either no statistics at all, or
exactly the statistics the builder chunk already carried). -/
theorem C9_exactness_flags :
    (∀ (castC : Int → Int) (m : ColumnChunkMetadataE)
       (st : ChunkStatisticsE) (a : ArrayE),
       m.statistics = some st → st.hasMinMax = true →
       ∃ s, (AttachStatistics castC (some m) a).stats = some s ∧
         s.isMinExact = true ∧ s.isMaxExact = true) ∧
    (∀ (w : Nat) (init : Nat → List Nat) (r : RecordReaderE) (field : FieldE)
       (out : List ArrayE),
       TransferDecimal (ConvertToDecimalByteArray w init field.ftype) r
         field = .ok out →
       ∀ c ∈ out, c.stats = none) ∧
    (∀ (r : RecordReaderE) (field : FieldE), r.readDictionary = false →
       ∀ c ∈ TransferBinary r field,
         c.stats = none ∨ ∃ c0 ∈ r.binaryChunks, c.stats = c0.stats) := by
  refine ⟨AttachStatistics_minmax_exact, ?_, ?_⟩
  · intro w init r field out h c hc
    unfold TransferDecimal at h
    cases hloop : convertChunksLoop (ConvertToDecimalByteArray w init
        field.ftype) r.binaryChunks with
    | error e =>
      rw [hloop] at h
      exact Except.noConfusion h
    | ok chunks =>
      rw [hloop] at h
      dsimp only at h
      have hmem := convertChunksLoop_mem _ _ _ hloop
      by_cases hn : field.nullable = true
      · rw [if_pos hn] at h
        injection h with h2
        subst h2
        obtain ⟨c0, _, hcv⟩ := hmem c hc
        exact ConvertToDecimalByteArray_stats_none _ _ _ _ _ hcv
      · rw [if_neg hn] at h
        injection h with h2
        subst h2
        obtain ⟨c1, hc1, hcs⟩ := Reconstruct_stats_from chunks c hc
        obtain ⟨c0, _, hcv⟩ := hmem c1 hc1
        rw [hcs]
        exact ConvertToDecimalByteArray_stats_none _ _ _ _ _ hcv
  · intro r field hrd c hc
    unfold TransferBinary at hc
    rw [hrd] at hc
    simp only [Bool.false_eq_true, if_false] at hc
    have hmap : ∀ x ∈ r.binaryChunks.map (fun c =>
        if c.atype = field.ftype then c else castChunkTo field.ftype c),
        x.stats = none ∨ ∃ c0 ∈ r.binaryChunks, x.stats = c0.stats := by
      intro x hx
      rw [List.mem_map] at hx
      obtain ⟨c0, hc0, hmapx⟩ := hx
      by_cases ha : c0.atype = field.ftype
      · rw [if_pos ha] at hmapx
        subst hmapx
        exact Or.inr ⟨c0, hc0, rfl⟩
      · rw [if_neg ha] at hmapx
        subst hmapx
        exact Or.inl rfl
    by_cases hn : field.nullable = true
    · rw [if_pos hn] at hc
      exact hmap c hc
    · rw [if_neg hn] at hc
      obtain ⟨c1, hc1, hcs⟩ := Reconstruct_stats_from _ c hc
      rcases hmap c1 hc1 with hnone | ⟨c0, hc0, hcs0⟩
      · exact Or.inl (hcs.trans hnone)
      · exact Or.inr ⟨c0, hc0, hcs.trans hcs0⟩

/-! ## Concrete fixtures and witness instances -/

/-- A validity bitmap buffer marking slot 0 valid and slot 1 null. -/
def bufV : BufferE := ⟨1, [1]⟩

/-- A concrete values buffer. -/
def bufD : BufferE := ⟨2, [7, 0, 0, 0, 9, 0, 0, 0]⟩

/-- Concrete Int96 getters. -/
def g0 : Int96Getters := ⟨fun _ => 11, fun _ => 12, fun _ => 13, fun _ => 14⟩

/-- A concrete record reader state. -/
def rdr0 : RecordReaderE :=
  { valuesWritten := 2, valuesBuf := bufD, isValid := some bufV,
    nullCount := 1, nullableValues := true,
    boolValues := [true, false], int32Values := [5, -3],
    int64Values := [9, 10], int96Values := [⟨0, 0, 0⟩, ⟨1, 2, 3⟩],
    readDictionary := false, dictChunks := [], dictType := .utf8,
    binaryChunks := [] }

/-- A concrete record reader holding the decimal example value 12345. -/
def rdr7 : RecordReaderE := { rdr0 with int32Values := [12345, 0] }

/-- A concrete chunk with a validity buffer. -/
def chunkV : ArrayE :=
  { atype := .utf8, length := 2, validity := some bufV,
    nullCountRaw := some 1, payload := .binary [[65], [66]], stats := none }

/-- A concrete binary chunk holding two decimal byte strings. -/
def chunkB : ArrayE :=
  { atype := .binary, length := 2, validity := none,
    nullCountRaw := some 0, payload := .binary [[48, 57], [255]],
    stats := none }

/-- A concrete binary chunk with one 17-byte value, too long for a 16-byte
decimal. -/
def chunkBbad : ArrayE :=
  { atype := .binary, length := 1, validity := none, nullCountRaw := some 0,
    payload := .binary [List.replicate 17 0], stats := none }

/-- Concrete column chunk metadata with min/max statistics present. -/
def md9 : ColumnChunkMetadataE := ⟨some ⟨true, false, 0, 1, 100⟩⟩

/-- A concrete produced int array. -/
def arr9 : ArrayE :=
  { atype := .int32, length := 2, validity := none, nullCountRaw := some 0,
    payload := .ints [1, 100], stats := none }

/-- Concrete int32 statistics over a 16-bit signed integer column. -/
def stats8 : Int32StatisticsE := ⟨1, 100, .int .w16 true⟩

theorem C1_witness :
    (((ReconstructChunksWithoutNulls [chunkV]).getD 0 chunkV).validity =
        none ∧
     ((ReconstructChunksWithoutNulls [chunkV]).getD 0 chunkV).nullCountObs =
        0) ∧
    ((TransferZeroCopy (toSigned 32) rdr0 none ⟨.int32, false⟩).validity =
        none ∧
     (TransferZeroCopy (toSigned 32) rdr0 none ⟨.int32, false⟩).nullCountObs =
        0) ∧
    (DecimalIntegerTransfer 16 rdr0.int32Values rdr0
        ⟨.decimal128 5 2, true⟩).nullCountObs = rdr0.nullCount :=
  ⟨C1_nullability_contract.1 [chunkV] (by decide) _ (by decide),
   (C1_nullability_contract.2.1 (toSigned 32) rdr0 none ⟨.int32, false⟩).1
     rfl,
   (C1_nullability_contract.2.2 16 rdr0.int32Values rdr0
     ⟨.decimal128 5 2, true⟩ (by decide)).2 rfl⟩

theorem C2_witness :
    ∃ a, TransferColumnData g0 (fun _ => []) rdr0 none ⟨.int32, true⟩
        ⟨.int64, 0⟩ = .ok [a] ∧
      a.payload = .buf rdr0.valuesBuf ∧
      a.validity =
        (if (⟨.int32, true⟩ : FieldE).nullable then rdr0.isValid else none) :=
  C2_zero_copy_path g0 (fun _ => []) rdr0 none ⟨.int32, true⟩ ⟨.int64, 0⟩
    (Or.inl rfl)

theorem C3_witness :
    (TransferBool rdr0 none true).payload =
      .bitmap (transferBoolBitmap rdr0.boolValues rdr0.valuesWritten) ∧
    getBitList (transferBoolBitmap rdr0.boolValues rdr0.valuesWritten) 0 =
      rdr0.boolValues.getD 0 false :=
  C3_bool_bitpack rdr0 none true 0 (by decide) (by decide)

theorem C4_witness :
    ∃ vals, (TransferDate64 rdr0 ⟨.date64, true⟩).payload = .i64 vals ∧
      vals.getD 0 0 = rdr0.int32Values.getD 0 0 * 86400000 ∧
      -(2 ^ 63) ≤ vals.getD 0 0 ∧ vals.getD 0 0 < 2 ^ 63 :=
  C4_date64_conversion rdr0 ⟨.date64, true⟩ 0 (by decide) (by decide)
    (by decide)

theorem C5_witness :
    ∃ vals, (TransferInt96 g0 rdr0 ⟨.timestamp .nano, true⟩ .nano).payload =
        .i64 vals ∧
      ((rdr0.int96Values.getD 1 ⟨0, 0, 0⟩).w2 = 0 → vals.getD 1 0 = 0) ∧
      ((rdr0.int96Values.getD 1 ⟨0, 0, 0⟩).w2 ≠ 0 → vals.getD 1 0 =
        (match TimeUnit.nano with
         | .nano => g0.nano (rdr0.int96Values.getD 1 ⟨0, 0, 0⟩)
         | .micro => g0.micro (rdr0.int96Values.getD 1 ⟨0, 0, 0⟩)
         | .milli => g0.milli (rdr0.int96Values.getD 1 ⟨0, 0, 0⟩)
         | .second => g0.second (rdr0.int96Values.getD 1 ⟨0, 0, 0⟩))) :=
  C5_int96_high_word_guard g0 rdr0 ⟨.timestamp .nano, true⟩ .nano 1
    (by decide)

set_option maxRecDepth 4000 in
theorem C6_witness :
    (∃ msg, ConvertToDecimalByteArray 16 (fun _ => []) (.decimal128 5 2)
        chunkBbad = .error (.invalid msg)) ∧
    (∃ out segs, ConvertToDecimalByteArray 16 (fun _ => [])
        (.decimal128 5 2) chunkB = .ok out ∧
      out.payload = .fixedBytes segs ∧
      segs.getD 0 [] = intToBytesLE 16 12345) := by
  constructor
  · exact (C6_decimal_bytearray_conversion 16 (fun _ => [])
      (.decimal128 5 2) chunkBbad _ rfl).1 ⟨0, by decide, by decide⟩
  · obtain ⟨out, segs, h1, h2, h3, h4⟩ :=
      (C6_decimal_bytearray_conversion 16 (fun _ => []) (.decimal128 5 2)
        chunkB _ rfl).2 (by decide)
    refine ⟨out, segs, h1, h2, ?_⟩
    rw [h4 0 (by decide) (Or.inl (by decide))]
    decide

theorem C7_witness :
    ∃ segs, (DecimalIntegerTransfer 16 rdr7.int32Values rdr7
        ⟨.decimal128 5 2, true⟩).payload = .fixedBytes segs ∧
      segs.getD 0 [] = intToBytesLE 16 (rdr7.int32Values.getD 0 0) :=
  C7_decimal_integer_transfer 16 rdr7.int32Values rdr7
    ⟨.decimal128 5 2, true⟩ 0 (by decide)

theorem C8_witness :
    FromInt32Statistics stats8 (.int .w16 true) =
      .ok (some (⟨intScalarType .w16 true, intWrap .w16 true stats8.minRaw⟩,
                 ⟨intScalarType .w16 true,
                  intWrap .w16 true stats8.maxRaw⟩)) :=
  (C8_int32_statistics_dispatch stats8 (.int .w16 true) rfl).1 .w16 true rfl

theorem C9_witness :
    ∃ s, (AttachStatistics (toSigned 32) (some md9) arr9).stats = some s ∧
      s.isMinExact = true ∧ s.isMaxExact = true :=
  C9_exactness_flags.1 (toSigned 32) md9 ⟨true, false, 0, 1, 100⟩ arr9 rfl
    rfl

theorem C10_witness :
    (TransferBool rdr0 none false).payload =
      .bitmap (transferBoolBitmap rdr0.boolValues rdr0.valuesWritten) ∧
    getBitList (transferBoolBitmap rdr0.boolValues rdr0.valuesWritten) 2 =
      false :=
  C10_bool_padding_zero rdr0 none false 2 (by decide)

end ArrowParquet
